import Mathlib

/-!
Verification of the GSP inventory-feed converter (`gsp_inventory.py`).

The script converts a spreadsheet inventory feed (columns `Site`, `ItemNumber`,
`QuantityOnHand`) into a delimited text file.  This file embeds the script's
logic shallowly in Lean: the delimiter validator, the column-cleaning pass,
the `to_csv` serialization (UTF-8 text, CRLF, no quoting, backslash escape),
the command-line parsing built on Python's `getopt`, the platform/version
check, and the file effects of `main` (write output, optionally delete input).
-/

/-! ## Delimiter validator (`validateDelimiter`, gsp_inventory.py lines 243-273) -/

/-- The allow-list of delimiters (`acceptableDelimiters` in the source). -/
def acceptableDelimiters : List String := [",", "\t", ":", "|", " "]

/-- Embedding of `validateDelimiter(delimiter, defaultDilimiter)`:
normalize the two-character escape `\t`, reject strings longer than one
character (falling back to a comma), reject characters outside the
allow-list (falling back to the caller's default). -/
def validateDelimiter (delimiter defaultDilimiter : String) : String :=
  let delim := if delimiter = "\\t" then "\t" else delimiter
  if delim.length > 1 then ","
  else if delim ∉ acceptableDelimiters then defaultDilimiter
  else delim

/-- The reference mapping stated by the specification for the delimiter
validator, written out from the spec's words: normalize the two-character
tab escape; length greater than one yields the comma; a single character
outside the allow-list yields the caller-supplied default; otherwise the
input is returned unchanged. -/
def claimDelimiterMapping (d dflt : String) : String :=
  let n := if d = "\\t" then "\t" else d
  if n.length > 1 then ","
  else if n ∉ [",", "\t", ":", "|", " "] then dflt
  else n

/-- The program's default delimiter (`defaultDilimiter = '\t'`). -/
def defaultDilimiter : String := "\t"

/-! ## Data model and the cleaning pass (gsp_inventory.py lines 110-121)

A loaded row holds the three required columns plus the cells of any further
columns the spreadsheet may carry.  Text cells may be missing (`none`);
the quantity column holds a numeric cell (rationals model the spreadsheet's
numerics exactly) or is missing. -/

/-- A row of the loaded spreadsheet: `Site`, `ItemNumber`, `QuantityOnHand`,
and the cells of any additional columns (opaque to the pipeline). -/
structure Row where
  site : Option String
  item : Option String
  qty : Option ℚ
  rest : List (Option String)
deriving DecidableEq

/-- A row after the cleaning pass: text defaults applied and the quantity
coerced to an integer. -/
structure CleanRow where
  site : String
  item : String
  qty : ℤ
  rest : List (Option String)
deriving DecidableEq

/-- `Series.fillna(value)` on a single cell: replace a missing value,
keep a present one. -/
def fillna {α : Type} (value : α) : Option α → α
  | none => value
  | some v => v

/-- `astype(int)` on a numeric cell: the C-style cast truncates the
fractional part (toward zero). -/
def astypeInt (q : ℚ) : ℤ :=
  if 0 ≤ q then ⌊q⌋ else ⌈q⌉

/-- The cleaning pass of `main` (lines 114-120): fill missing `Site` and
`ItemNumber` with the empty string, fill missing `QuantityOnHand` with `0`,
then cast `QuantityOnHand` to integer.  All other cells pass through. -/
def cleanRow (r : Row) : CleanRow :=
  { site := fillna "" r.site
    item := fillna "" r.item
    qty := astypeInt (fillna 0 r.qty)
    rest := r.rest }

/-- The cleaning pass over the whole loaded table. -/
def cleanTable (t : List Row) : List CleanRow :=
  t.map cleanRow

/-! ## Serialization (`to_csv`, gsp_inventory.py lines 123-132)

`to_csv` is called with `columns=['Site','ItemNumber','QuantityOnHand']`,
`sep=delimiter`, `line_terminator='\r\n'`, `quoting=csv.QUOTE_NONE`,
`escapechar='\\'`, `index=False`, `float_format='%.2f'`, `encoding='utf-8'`.
The output text is modelled as a list of characters (UTF-8 byte encoding is
below the abstraction level of this model).  After the cleaning pass the
quantity column is integral, so `float_format` is never exercised; an
integer cell is written as its decimal representation (`Int.repr`). -/

/-- The delimiters the pipeline can actually hand to `to_csv`, as characters
(the character forms of `acceptableDelimiters`). -/
def sepChars : List Char := [',', '\t', ':', '|', ' ']

/-- With `quoting=csv.QUOTE_NONE` and `escapechar='\\'`, the writer must
escape the separator, the escape character itself, and the line-terminator
characters. -/
def needsEscape (sep c : Char) : Bool :=
  c = sep || c = '\\' || c = '\r' || c = '\n'

/-- Escape a field for `QUOTE_NONE` output: prefix every character that
needs escaping with a backslash. -/
def escapeField (sep : Char) : List Char → List Char
  | [] => []
  | c :: cs =>
    if needsEscape sep c then '\\' :: c :: escapeField sep cs
    else c :: escapeField sep cs

/-- The CRLF line terminator passed as `line_terminator='\r\n'`. -/
def CRLF : List Char := ['\r', '\n']

/-- One data row of the output: the three selected columns in fixed order,
escaped and joined by the separator. -/
def renderRow (sep : Char) (r : CleanRow) : List Char :=
  escapeField sep r.site.toList ++ [sep] ++ escapeField sep r.item.toList
    ++ [sep] ++ escapeField sep (Int.repr r.qty).toList

/-- The header row: the three column names (`columnList` in the source),
escaped and joined by the separator. -/
def headerRow (sep : Char) : List Char :=
  escapeField sep "Site".toList ++ [sep] ++ escapeField sep "ItemNumber".toList
    ++ [sep] ++ escapeField sep "QuantityOnHand".toList

/-- The full `to_csv` output: header line, then one line per record in
source order, every line terminated by CRLF. -/
def serialize (sep : Char) (t : List CleanRow) : List Char :=
  headerRow sep ++ CRLF ++ (t.map (fun r => renderRow sep r ++ CRLF)).flatten

/-! ## Reading the output back (round-trip, spec section 8)

The spec's round-trip property loads the produced file again with the same
single-character delimiter (`pd.read_csv(path, sep=delimiter)` with default
settings): lines are split at line terminators, blank lines are skipped,
and each line is split at every occurrence of the separator. -/

/-- Split a character list at every occurrence of a separator character. -/
def splitOnChar (sep : Char) : List Char → List (List Char)
  | [] => [[]]
  | c :: cs =>
    match splitOnChar sep cs with
    | [] => [[]]
    | r :: rs => if c = sep then [] :: r :: rs else (c :: r) :: rs

/-- Drop a single carriage return at the end of a line (universal-newline
treatment of a CRLF-terminated line after splitting at `'\n'`). -/
def stripTrailCR : List Char → List Char
  | [] => []
  | [c] => if c = '\r' then [] else [c]
  | c :: c2 :: cs => c :: stripTrailCR (c2 :: cs)

/-- Load delimited text: split into lines, skip blank lines, split each
line at the separator. -/
def parseDelimited (sep : Char) (content : List Char) : List (List (List Char)) :=
  ((((splitOnChar '\n' content).map stripTrailCR).filter
      (fun l => !l.isEmpty)).map (splitOnChar sep))

/-! ## Platform and version check (`checkPlatformAndPythonVersion`,
gsp_inventory.py lines 276-297) -/

/-- Log severities used by the script's logger. -/
inductive Severity where
  | normal
  | warning
  | error
  | codeBreaker
deriving DecidableEq, Repr

/-- A log entry (timestamp and source line number are immaterial here). -/
structure LogEntry where
  severity : Severity
  message : String
deriving DecidableEq, Repr

/-- The platforms accepted by the check (`('windows', 'linux')`). -/
def supportedPlatforms : List String := ["windows", "linux"]

/-- Embedding of `checkPlatformAndPythonVersion()`, parametrized by the
interpreter version and the `PLATFORM` value.  The result is the log
entries written and `some code` when the function exits the process
(a bare Python `exit()` terminates with status 0).  Note the source calls
`exit()` in the version branch but not in the platform branch: the platform
branch only logs and then falls through. -/
def checkPlatformAndPythonVersion (pythonVersion : ℚ) (platform : String) :
    List LogEntry × Option Nat :=
  if ¬ pythonVersion ≥ 3.5 then
    ([⟨Severity.codeBreaker, "Must use Python version 3.5 or higher!"⟩], some 0)
  else if platform ∉ supportedPlatforms then
    ([⟨Severity.codeBreaker, "Please use Windows or Linux platform."⟩], none)
  else ([], none)

/-! ## Argument parsing (`parseArgs`, gsp_inventory.py lines 143-240)

`parseArgs` calls `getopt.getopt(argv, "hi:o:d:vp",
["help", "input=", "output=", "delimiter=", "verbose", "preserve"])`.
The model below follows Python's `getopt`: options are consumed left to
right until the first non-option token, `--` ends option processing,
short options may be clustered and take the rest of their cluster or the
next token as argument, long options take their argument after `=` or from
the next token.  Long options are matched here by their full name
(`getopt`'s unique-prefix abbreviation is not modelled; no property below
depends on it). -/

/-- `str.startswith(pre)`, computed on the character lists. -/
def strStartsWith (s pre : String) : Bool :=
  pre.toList.isPrefixOf s.toList

/-- `str.endswith(suffix)`, computed on the character lists. -/
def strEndsWith (s suffix : String) : Bool :=
  suffix.toList.isSuffixOf s.toList

/-- The short option string `"hi:o:d:vp"`: each option character with
whether it requires an argument. -/
def shortOpts : List (Char × Bool) :=
  [('h', false), ('i', true), ('o', true), ('d', true), ('v', false), ('p', false)]

/-- The long option list: each name with whether it requires an argument
(a trailing `=` in the Python spelling). -/
def longOpts : List (String × Bool) :=
  [("help", false), ("input", true), ("output", true), ("delimiter", true),
   ("verbose", false), ("preserve", false)]

/-- Process one cluster of short options (the characters of a `-abc` token).
Returns the parsed `(option, value)` pairs together with an option character
still waiting for its argument from the next token, or `none` on an unknown
option character (`GetoptError`). -/
def doShorts : List Char → Option (List (String × String) × Option Char)
  | [] => some ([], none)
  | c :: cs =>
    match List.lookup c shortOpts with
    | none => none
    | some false =>
      match doShorts cs with
      | none => none
      | some (os, pending) => some ((String.mk ['-', c], "") :: os, pending)
    | some true =>
      if cs.isEmpty then some ([], some c)
      else some ([(String.mk ['-', c], String.mk cs)], none)

/-- Split the body of a `--name=value` token at the first `=`. -/
def splitLongOpt : List Char → List Char × Option (List Char)
  | [] => ([], none)
  | c :: cs =>
    if c = '=' then ([], some cs)
    else
      let (n, v) := splitLongOpt cs
      (c :: n, v)

/-- Embedding of `getopt.getopt` for the script's option spec: returns the
`(option, value)` pairs and the remaining positional arguments, or `none`
when `getopt` raises `GetoptError` (unknown option, missing required
argument, or an argument given to an option that takes none). -/
def getoptModel : List String → Option (List (String × String) × List String)
  | [] => some ([], [])
  | a :: rest =>
    if a = "--" then some ([], rest)
    else if a = "-" then some ([], a :: rest)
    else if strStartsWith a "--" then
      let (nameCs, valOpt) := splitLongOpt (a.toList.drop 2)
      let name := String.mk nameCs
      match List.lookup name longOpts with
      | none => none
      | some true =>
        match valOpt with
        | some v =>
          match getoptModel rest with
          | none => none
          | some (os, args) => some (("--" ++ name, String.mk v) :: os, args)
        | none =>
          match rest with
          | [] => none
          | v :: rest2 =>
            match getoptModel rest2 with
            | none => none
            | some (os, args) => some (("--" ++ name, v) :: os, args)
      | some false =>
        match valOpt with
        | some _ => none
        | none =>
          match getoptModel rest with
          | none => none
          | some (os, args) => some (("--" ++ name, "") :: os, args)
    else if strStartsWith a "-" then
      match doShorts (a.toList.drop 1) with
      | none => none
      | some (os, none) =>
        match getoptModel rest with
        | none => none
        | some (os2, args) => some (os ++ os2, args)
      | some (os, some c) =>
        match rest with
        | [] => none
        | v :: rest2 =>
          match getoptModel rest2 with
          | none => none
          | some (os2, args) => some (os ++ [(String.mk ['-', c], v)] ++ os2, args)
    else some ([], a :: rest)

/-- The run configuration assembled by `parseArgs` (its return tuple). -/
structure RunConfig where
  inputFilePath : String
  outputFilePath : String
  delimiter : String
  preserveOldFiles : Bool
  verbose : Bool
deriving DecidableEq, Repr

/-- The expected input extension (`inputFileExtension = '.xls'`). -/
def inputFileExtension : String := ".xls"

/-- The default input file name (`'GSPInventoryFeed' + inputFileExtension`). -/
def inputFileName : String := "GSPInventoryFeed" ++ inputFileExtension

/-- The default input path: the user's `Downloads` directory joined with the
default file name (identical on both supported platforms; `home` stands for
`os.path.expanduser('~')`). -/
def inputDefaultPath (home : String) : String :=
  home ++ "/Downloads/" ++ inputFileName

/-- The default output path: `Downloads/gsp_inventory.tsv` under the user's
home directory. -/
def outputDefaultPath (home : String) : String :=
  home ++ "/Downloads/gsp_inventory.tsv"

/-- The configuration before any option is applied. -/
def initialConfig (home : String) : RunConfig :=
  { inputFilePath := inputDefaultPath home
    outputFilePath := outputDefaultPath home
    delimiter := defaultDilimiter
    preserveOldFiles := false
    verbose := false }

/-- The option loop of `parseArgs` (lines 202-218): fold the parsed options
over the configuration.  `none` models the `-h` branch, which prints the
usage text and calls `sys.exit()`.  The source compares the option against
`'-h'` only, so a `--help` option matches none of the branches and falls
through with no effect. -/
def processOpts : List (String × String) → RunConfig → Option RunConfig
  | [], st => some st
  | (option, value) :: rest, st =>
    if option = "-h" then none
    else if option = "-i" ∨ option = "--input" then
      processOpts rest { st with inputFilePath := value }
    else if option = "-o" ∨ option = "--output" then
      processOpts rest { st with outputFilePath := value }
    else if option = "-d" ∨ option = "--delimiter" then
      processOpts rest { st with delimiter := validateDelimiter value defaultDilimiter }
    else if option = "-p" ∨ option = "--preserve" then
      processOpts rest { st with preserveOldFiles := true }
    else if option = "-v" ∨ option = "--verbose" then
      processOpts rest { st with verbose := true }
    else processOpts rest st

/-- The file-system facts `parseArgs` queries: `os.path.exists` and
`os.path.isdir`. -/
structure FS where
  pathExists : String → Bool
  isDir : String → Bool

/-- `os.path.dirname` for POSIX paths: everything up to the last slash,
with trailing slashes stripped (kept when the prefix is only slashes). -/
def upToLastSlash : List Char → Option (List Char)
  | [] => none
  | c :: cs =>
    match upToLastSlash cs with
    | some tail => some (c :: tail)
    | none => if c = '/' then some [c] else none

/-- Strip trailing slashes unless the whole name consists of slashes. -/
def stripTrailingSlashes (cs : List Char) : List Char :=
  if cs.all (fun c => c = '/') then cs
  else (cs.reverse.dropWhile (fun c => c = '/')).reverse

/-- `os.path.dirname` (POSIX). -/
def dirname (p : String) : String :=
  match upToLastSlash p.toList with
  | none => ""
  | some cs => String.mk (stripTrailingSlashes cs)

/-- The usage text printed by the script (abridged to its first line; its
content plays no role in any property below). -/
def HELP_MESSAGE : String :=
  "Usage: the script is capable of running without any argument provided."

/-- The code-breaker message of the input-path check (lines 226-229). -/
def invalidInputMsg : String :=
  "Invalid file path. Check if it exists, is not a directory and has .xls extension. Exiting."

/-- The warning message of the output-path check (lines 234-237). -/
def invalidOutputMsg : String :=
  "Invalid output file path. Check if it exists and is not a directory. Reverting to defaults."

/-- The observable outcome of `parseArgs`: log entries written, console
prints, and either an exit status or the returned configuration.  Every
termination in `parseArgs` is a bare `exit()` / `sys.exit()`, which ends
the process with status 0. -/
structure ParseOutcome where
  logs : List LogEntry
  printed : List String
  result : Except Nat RunConfig
deriving Repr

/-- Embedding of `parseArgs(argv)` (lines 143-240): run `getopt`, fold the
options, validate the input path (exists, not a directory, `.xls`
extension — otherwise log a code-breaker and `exit()`), then validate the
output path (directory component exists and the path is not a directory —
otherwise log a warning and fall back to the default output path). -/
def parseArgs (home : String) (fs : FS) (argv : List String) : ParseOutcome :=
  match getoptModel argv with
  | none =>
    { logs := [], printed := ["Error in arguments!", HELP_MESSAGE], result := Except.error 0 }
  | some (opts, _) =>
    match processOpts opts (initialConfig home) with
    | none =>
      { logs := [], printed := [HELP_MESSAGE], result := Except.error 0 }
    | some st =>
      if !fs.pathExists st.inputFilePath || fs.isDir st.inputFilePath
          || !strEndsWith st.inputFilePath inputFileExtension then
        { logs := [⟨Severity.codeBreaker, invalidInputMsg⟩], printed := [],
          result := Except.error 0 }
      else if !fs.pathExists (dirname st.outputFilePath) || fs.isDir st.outputFilePath then
        { logs := [⟨Severity.warning, invalidOutputMsg⟩], printed := [],
          result := Except.ok { st with outputFilePath := outputDefaultPath home } }
      else
        { logs := [], printed := [], result := Except.ok st }

/-! ## File effects of `main` (gsp_inventory.py lines 110-139)

After `parseArgs`, `main` reads the input spreadsheet, cleans it, writes
the delimited output, and — unless the preserve flag is set — deletes the
input file.  The file system is a map from paths to file contents; the
spreadsheet decoder (`pd.read_excel`) is an abstract parameter. -/

/-- A file system as a partial map from paths to contents. -/
abbrev FileMap := String → Option String

/-- The file operations `main` performs, in order. -/
inductive FileEvent where
  | readF (path : String)
  | writeF (path : String) (content : String)
  | removeF (path : String)
deriving DecidableEq, Repr

/-- Apply one file operation to the file system. -/
def applyEvent (fs : FileMap) : FileEvent → FileMap
  | FileEvent.readF _ => fs
  | FileEvent.writeF p c => fun q => if q = p then some c else fs q
  | FileEvent.removeF p => fun q => if q = p then none else fs q

/-- The single character the validated delimiter string consists of
(`validateDelimiter` always returns a one-character allow-list string;
see the invariant proved below). -/
def delimiterChar (d : String) : Char :=
  d.toList.headD '\t'

/-- The conversion steps of `main` after argument parsing (lines 110-139):
read the input file (`pd.read_excel` raises if it is unreadable, modelled
as `none`), clean the table, write the serialized output, and delete the
input file unless `preserveOldFiles` is set.  Returns the ordered file
events and the resulting file system. -/
def mainRun (cfg : RunConfig) (readExcel : String → List Row) (fs : FileMap) :
    Option (List FileEvent × FileMap) :=
  match fs cfg.inputFilePath with
  | none => none
  | some content =>
    let cleaned := cleanTable (readExcel content)
    let out := String.mk (serialize (delimiterChar cfg.delimiter) cleaned)
    let evs :=
      [FileEvent.readF cfg.inputFilePath, FileEvent.writeF cfg.outputFilePath out]
        ++ (if cfg.preserveOldFiles then [] else [FileEvent.removeF cfg.inputFilePath])
    some (evs, evs.foldl applyEvent fs)

/-! ## Concrete fixtures used by counterexamples and witnesses -/

/-- A file system on which nothing exists. -/
def fsEmpty : FS :=
  { pathExists := fun _ => false, isDir := fun _ => false }

/-- A file system on which the default input file and the default
`Downloads` directory (for home `/home/u`) exist; nothing is a directory
at the two paths the script queries with `os.path.isdir`. -/
def fsDefaultsOk : FS :=
  { pathExists := fun p =>
      p = inputDefaultPath "/home/u" || p = "/home/u/Downloads"
    isDir := fun _ => false }

/-- A sample cleaned row with plain text fields. -/
def rowPlain : CleanRow :=
  { site := "A", item := "100", qty := 5, rest := [] }

/-- A sample cleaned row whose `Site` value contains a tab character. -/
def rowWithTab : CleanRow :=
  { site := String.mk ['A', '\t', 'B'], item := "x", qty := 3, rest := [] }

/-- A run configuration whose output path coincides with the input path
(reachable: `-i f.xls -o f.xls`), with the preserve flag set. -/
def cfgSamePath : RunConfig :=
  { inputFilePath := "/d/f.xls", outputFilePath := "/d/f.xls",
    delimiter := "\t", preserveOldFiles := true, verbose := false }

/-- A run configuration with distinct input and output paths and the
preserve flag not set. -/
def cfgDistinct : RunConfig :=
  { inputFilePath := "/d/in.xls", outputFilePath := "/d/out.tsv",
    delimiter := "\t", preserveOldFiles := false, verbose := false }

/-- A file map holding one spreadsheet file at `/d/f.xls`. -/
def fmSame : FileMap :=
  fun p => if p = "/d/f.xls" then some "raw-xls-bytes" else none

/-- A file map holding one spreadsheet file at `/d/in.xls`. -/
def fmDistinct : FileMap :=
  fun p => if p = "/d/in.xls" then some "raw-xls-bytes" else none

/-- A spreadsheet decoder returning the empty table (its value is
irrelevant to the frame properties it is used for). -/
def readExcelEmpty : String → List Row :=
  fun _ => []

/-- A field is plain for a separator when none of its characters needs
escaping (no separator, no backslash, no CR, no LF). -/
def plainField (sep : Char) (l : List Char) : Bool :=
  l.all (fun c => !needsEscape sep c)

/-! ## Helper lemmas about escaping, splitting and decimal digits -/

theorem escapeField_eq_self (sep : Char) (l : List Char)
    (h : plainField sep l = true) : escapeField sep l = l := by
  induction l with
  | nil => rfl
  | cons c cs ih =>
    simp only [plainField, List.all_cons, Bool.and_eq_true, Bool.not_eq_true'] at h
    unfold escapeField
    rw [h.1, if_neg (by simp)]
    rw [ih (by simpa [plainField] using h.2)]

theorem plainField_not_mem_sep (sep : Char) (l : List Char)
    (h : plainField sep l = true) : sep ∉ l := by
  intro hm
  have := (List.all_eq_true.mp h) sep hm
  simp [needsEscape] at this

theorem plainField_not_mem_cr (sep : Char) (l : List Char)
    (h : plainField sep l = true) : '\r' ∉ l := by
  intro hm
  have := (List.all_eq_true.mp h) '\r' hm
  simp [needsEscape] at this

theorem plainField_not_mem_lf (sep : Char) (l : List Char)
    (h : plainField sep l = true) : '\n' ∉ l := by
  intro hm
  have := (List.all_eq_true.mp h) '\n' hm
  simp [needsEscape] at this

theorem splitOnChar_ne_nil (sep : Char) (l : List Char) : splitOnChar sep l ≠ [] := by
  induction l with
  | nil => simp [splitOnChar]
  | cons c cs ih =>
    unfold splitOnChar
    cases h : splitOnChar sep cs with
    | nil => exact absurd h ih
    | cons r rs =>
      by_cases hcs : c = sep <;> simp [hcs]

theorem splitOnChar_of_not_mem (sep : Char) (a : List Char) (h : sep ∉ a) :
    splitOnChar sep a = [a] := by
  induction a with
  | nil => rfl
  | cons c cs ih =>
    simp only [List.mem_cons, not_or] at h
    have hcne : ¬ (c = sep) := fun he => h.1 he.symm
    simp [splitOnChar, ih h.2, hcne]

theorem splitOnChar_append (sep : Char) (a b : List Char) (h : sep ∉ a) :
    splitOnChar sep (a ++ sep :: b) = a :: splitOnChar sep b := by
  induction a with
  | nil =>
    simp only [List.nil_append]
    cases hb : splitOnChar sep b with
    | nil => exact absurd hb (splitOnChar_ne_nil sep b)
    | cons r rs => simp [splitOnChar, hb]
  | cons c cs ih =>
    simp only [List.mem_cons, not_or] at h
    have hcne : ¬ (c = sep) := fun he => h.1 he.symm
    simp only [List.cons_append]
    simp [splitOnChar, ih h.2, hcne]

theorem splitThreeFields (sep : Char) (a b c : List Char)
    (ha : sep ∉ a) (hb : sep ∉ b) (hc : sep ∉ c) :
    splitOnChar sep (a ++ [sep] ++ b ++ [sep] ++ c) = [a, b, c] := by
  have he : a ++ [sep] ++ b ++ [sep] ++ c = a ++ sep :: (b ++ sep :: c) := by
    simp
  rw [he, splitOnChar_append sep a _ ha, splitOnChar_append sep b _ hb,
    splitOnChar_of_not_mem sep c hc]

theorem stripTrailCR_append_cr (l : List Char) : stripTrailCR (l ++ ['\r']) = l := by
  induction l with
  | nil => rfl
  | cons c cs ih =>
    cases cs with
    | nil => rfl
    | cons d ds =>
      simp only [List.cons_append]
      unfold stripTrailCR
      simp only [List.cons_append] at ih
      rw [ih]

theorem digitChar_isDigit (k : Nat) (h : k < 10) : (Nat.digitChar k).isDigit = true := by
  interval_cases k <;> decide

theorem toDigitsCore_chars (f : Nat) :
    ∀ (n : Nat) (acc : List Char), ∀ c ∈ Nat.toDigitsCore 10 f n acc,
      c ∈ acc ∨ c.isDigit = true := by
  induction f with
  | zero =>
    intro n acc c hc
    simp only [Nat.toDigitsCore] at hc
    exact Or.inl hc
  | succ f ih =>
    intro n acc c hc
    simp only [Nat.toDigitsCore] at hc
    by_cases h0 : n / 10 = 0
    · rw [if_pos h0] at hc
      rcases List.mem_cons.mp hc with rfl | hmem
      · exact Or.inr (digitChar_isDigit _ (Nat.mod_lt n (by norm_num)))
      · exact Or.inl hmem
    · rw [if_neg h0] at hc
      rcases ih (n / 10) _ c hc with hmem | hd
      · rcases List.mem_cons.mp hmem with rfl | hmem2
        · exact Or.inr (digitChar_isDigit _ (Nat.mod_lt n (by norm_num)))
        · exact Or.inl hmem2
      · exact Or.inr hd

theorem intRepr_chars (i : ℤ) : ∀ c ∈ (Int.repr i).toList, c = '-' ∨ c.isDigit = true := by
  cases i with
  | ofNat m =>
    intro c hc
    have he : (Int.repr (Int.ofNat m)).toList = Nat.toDigitsCore 10 (m + 1) m [] := rfl
    rw [he] at hc
    rcases toDigitsCore_chars (m + 1) m [] c hc with h | h
    · exact absurd h (List.not_mem_nil c)
    · exact Or.inr h
  | negSucc m =>
    intro c hc
    have he : (Int.repr (Int.negSucc m)).toList
        = '-' :: Nat.toDigitsCore 10 (m + 2) (m + 1) [] := rfl
    rw [he] at hc
    rcases List.mem_cons.mp hc with rfl | hmem
    · exact Or.inl rfl
    · rcases toDigitsCore_chars (m + 2) (m + 1) [] c hmem with h | h
      · exact absurd h (List.not_mem_nil c)
      · exact Or.inr h

theorem plainField_intRepr (sep : Char) (hd : sep.isDigit = false) (hm : sep ≠ '-')
    (i : ℤ) : plainField sep (Int.repr i).toList = true := by
  simp only [plainField, List.all_eq_true]
  intro c hc
  rcases intRepr_chars i c hc with rfl | h
  · have h1 : ('-' : Char) ≠ sep := fun he => hm he.symm
    simp [needsEscape, h1]
  · have h1 : c ≠ sep := by
      intro he
      rw [he, hd] at h
      cases h
    have h2 : c ≠ '\\' := by
      intro he
      rw [he] at h
      exact absurd h (by decide)
    have h3 : c ≠ '\r' := by
      intro he
      rw [he] at h
      exact absurd h (by decide)
    have h4 : c ≠ '\n' := by
      intro he
      rw [he] at h
      exact absurd h (by decide)
    simp [needsEscape, h1, h2, h3, h4]

theorem plainLine_facts (sep : Char) (hn : sep ≠ '\n') (hr : sep ≠ '\r')
    (a b c : List Char) (ha : plainField sep a = true) (hb : plainField sep b = true)
    (hc : plainField sep c = true) :
    '\n' ∉ a ++ [sep] ++ b ++ [sep] ++ c ∧ '\r' ∉ a ++ [sep] ++ b ++ [sep] ++ c ∧
      a ++ [sep] ++ b ++ [sep] ++ c ≠ [] ∧
      splitOnChar sep (a ++ [sep] ++ b ++ [sep] ++ c) = [a, b, c] := by
  refine ⟨?_, ?_, ?_, ?_⟩
  · intro hmem
    simp only [List.mem_append, List.mem_cons, List.not_mem_nil, or_false] at hmem
    rcases hmem with (((h1 | h1) | h1) | h1) | h1
    · exact plainField_not_mem_lf sep a ha h1
    · exact hn h1.symm
    · exact plainField_not_mem_lf sep b hb h1
    · exact hn h1.symm
    · exact plainField_not_mem_lf sep c hc h1
  · intro hmem
    simp only [List.mem_append, List.mem_cons, List.not_mem_nil, or_false] at hmem
    rcases hmem with (((h1 | h1) | h1) | h1) | h1
    · exact plainField_not_mem_cr sep a ha h1
    · exact hr h1.symm
    · exact plainField_not_mem_cr sep b hb h1
    · exact hr h1.symm
    · exact plainField_not_mem_cr sep c hc h1
  · simp
  · exact splitThreeFields sep a b c (plainField_not_mem_sep sep a ha)
      (plainField_not_mem_sep sep b hb) (plainField_not_mem_sep sep c hc)

theorem parse_lines (lines : List (List Char))
    (h : ∀ l ∈ lines, '\n' ∉ l ∧ '\r' ∉ l ∧ l ≠ []) :
    ((splitOnChar '\n' ((lines.map (fun l => l ++ CRLF)).flatten)).map stripTrailCR).filter
        (fun l => !l.isEmpty) = lines := by
  induction lines with
  | nil => rfl
  | cons l ls ih =>
    obtain ⟨hn, hr, hne⟩ := h l (List.mem_cons_self l ls)
    have hflat : ((l :: ls).map (fun x => x ++ CRLF)).flatten
        = (l ++ ['\r']) ++ '\n' :: ((ls.map (fun x => x ++ CRLF)).flatten) := by
      simp [CRLF]
    have hnot : '\n' ∉ l ++ ['\r'] := by
      intro hmem
      rcases List.mem_append.mp hmem with h1 | h1
      · exact hn h1
      · simp at h1
    rw [hflat, splitOnChar_append '\n' (l ++ ['\r']) _ hnot]
    simp only [List.map_cons, stripTrailCR_append_cr]
    have hl : (!l.isEmpty) = true := by
      cases l
      · exact absurd rfl hne
      · rfl
    rw [List.filter_cons, if_pos hl]
    rw [ih (fun x hx => h x (List.mem_cons_of_mem l hx))]

/-- The round-trip over the serialized output, generic in a separator that
is not a line-terminator character, a backslash, a digit or a minus sign,
and with all text fields plain.  The header facts are supplied as
hypotheses so the five allow-list separators share one proof. -/
theorem roundtrip_aux (sep : Char) (hn : sep ≠ '\n') (hr : sep ≠ '\r')
    (hdig : sep.isDigit = false) (hm : sep ≠ '-')
    (hS : plainField sep "Site".toList = true)
    (hI : plainField sep "ItemNumber".toList = true)
    (hQ : plainField sep "QuantityOnHand".toList = true)
    (t : List CleanRow)
    (hclean : ∀ r ∈ t, plainField sep r.site.toList = true ∧
      plainField sep r.item.toList = true) :
    parseDelimited sep (serialize sep t)
      = ["Site".toList, "ItemNumber".toList, "QuantityOnHand".toList]
          :: t.map (fun r => [r.site.toList, r.item.toList, (Int.repr r.qty).toList]) := by
  have hqty : ∀ i : ℤ, plainField sep (Int.repr i).toList = true :=
    plainField_intRepr sep hdig hm
  have hhdr : headerRow sep
      = "Site".toList ++ [sep] ++ "ItemNumber".toList ++ [sep] ++ "QuantityOnHand".toList := by
    unfold headerRow
    rw [escapeField_eq_self _ _ hS, escapeField_eq_self _ _ hI, escapeField_eq_self _ _ hQ]
  have hmap : t.map (fun r => renderRow sep r ++ CRLF)
      = t.map (fun r =>
          (r.site.toList ++ [sep] ++ r.item.toList ++ [sep] ++ (Int.repr r.qty).toList)
            ++ CRLF) := by
    apply List.map_congr_left
    intro r hrr
    obtain ⟨h1, h2⟩ := hclean r hrr
    unfold renderRow
    rw [escapeField_eq_self _ _ h1, escapeField_eq_self _ _ h2,
      escapeField_eq_self _ _ (hqty r.qty)]
  have hser : serialize sep t
      = ((("Site".toList ++ [sep] ++ "ItemNumber".toList ++ [sep] ++ "QuantityOnHand".toList)
          :: t.map (fun r =>
              r.site.toList ++ [sep] ++ r.item.toList ++ [sep] ++ (Int.repr r.qty).toList)).map
            (fun l => l ++ CRLF)).flatten := by
    unfold serialize
    rw [hhdr, hmap, List.map_cons, List.flatten_cons, List.map_map]
    rfl
  have hfacts : ∀ l ∈ ("Site".toList ++ [sep] ++ "ItemNumber".toList ++ [sep]
        ++ "QuantityOnHand".toList)
      :: t.map (fun r =>
          r.site.toList ++ [sep] ++ r.item.toList ++ [sep] ++ (Int.repr r.qty).toList),
      '\n' ∉ l ∧ '\r' ∉ l ∧ l ≠ [] := by
    intro l hl
    rcases List.mem_cons.mp hl with rfl | hl2
    · have := plainLine_facts sep hn hr _ _ _ hS hI hQ
      exact ⟨this.1, this.2.1, this.2.2.1⟩
    · obtain ⟨r, hrr, rfl⟩ := List.mem_map.mp hl2
      obtain ⟨h1, h2⟩ := hclean r hrr
      have := plainLine_facts sep hn hr _ _ _ h1 h2 (hqty r.qty)
      exact ⟨this.1, this.2.1, this.2.2.1⟩
  have hhead : splitOnChar sep
      ("Site".toList ++ [sep] ++ "ItemNumber".toList ++ [sep] ++ "QuantityOnHand".toList)
        = ["Site".toList, "ItemNumber".toList, "QuantityOnHand".toList] :=
    (plainLine_facts sep hn hr _ _ _ hS hI hQ).2.2.2
  have htail : (t.map (fun r =>
        r.site.toList ++ [sep] ++ r.item.toList ++ [sep] ++ (Int.repr r.qty).toList)).map
          (splitOnChar sep)
      = t.map (fun r => [r.site.toList, r.item.toList, (Int.repr r.qty).toList]) := by
    rw [List.map_map]
    apply List.map_congr_left
    intro r hrr
    obtain ⟨h1, h2⟩ := hclean r hrr
    exact (plainLine_facts sep hn hr _ _ _ h1 h2 (hqty r.qty)).2.2.2
  unfold parseDelimited
  rw [hser, parse_lines _ hfacts]
  rw [List.map_cons, hhead, htail]

/-! ## Claims about the delimiter validator (C3, C10) -/

/-- Claim C3: for every delimiter string and the caller default tab,
`validateDelimiter` computes exactly the reference mapping stated by the
specification (normalize the two-character tab escape, comma for oversized
input, the caller default for a character outside the allow-list, the
input itself otherwise). -/
theorem c3_delimiter_matches_claim_mapping :
    ∀ d : String, validateDelimiter d "\t" = claimDelimiterMapping d "\t" :=
  fun _ => rfl

/-- Claim C10: with the program's default tab as the caller default,
`validateDelimiter` always returns a single-character member of the
allow-list, whatever the user typed. -/
theorem c10_delimiter_invariant :
    ∀ d : String, (validateDelimiter d "\t").length = 1 ∧
      validateDelimiter d "\t" ∈ acceptableDelimiters := by
  intro d
  unfold validateDelimiter
  set delim := if d = "\\t" then "\t" else d with hdelim
  clear_value delim
  by_cases h1 : delim.length > 1
  · rw [if_pos h1]
    exact ⟨rfl, by decide⟩
  · rw [if_neg h1]
    by_cases h2 : delim ∉ acceptableDelimiters
    · rw [if_pos h2]
      exact ⟨rfl, by decide⟩
    · rw [if_neg h2]
      rw [not_not] at h2
      refine ⟨?_, h2⟩
      simp only [acceptableDelimiters, List.mem_cons, List.not_mem_nil, or_false] at h2
      rcases h2 with rfl | rfl | rfl | rfl | rfl <;> rfl

/-! ## Claim about the cleaning pass (C1) -/

/-- Claim C1: the cleaning pass replaces each missing `Site` and
`ItemNumber` value with the empty string and each missing `QuantityOnHand`
value with `0`, coerces every `QuantityOnHand` value to an integer by
truncating the fractional part, and changes no other cell: rows keep their
order, present text cells pass through unchanged, and the cells of all
other columns pass through unchanged. -/
theorem c1_cleaning_pass (t : List Row) :
    cleanTable t = t.map (fun r =>
      { site := match r.site with | none => "" | some s => s
        item := match r.item with | none => "" | some s => s
        qty := match r.qty with | none => 0 | some q => astypeInt q
        rest := r.rest }) := by
  unfold cleanTable
  apply List.map_congr_left
  intro r _
  rcases r with ⟨site, item, qty, rest⟩
  rcases site with _ | s <;> rcases item with _ | s2 <;> rcases qty with _ | q <;>
    simp [cleanRow, fillna, astypeInt]

/-! ## Claim about the platform check (C5) -/

/-- Claim C5 (code bug): on an unsupported platform the source logs the
code-breaker entry but, unlike the version branch just above it, never
calls `exit()` — the check returns and the pipeline continues.  Evaluated
at a current interpreter version and the platform `darwin`. -/
theorem c5_platform_check_does_not_exit :
    checkPlatformAndPythonVersion 3.8 "darwin"
      = ([⟨Severity.codeBreaker, "Please use Windows or Linux platform."⟩], none) := by
  unfold checkPlatformAndPythonVersion
  rw [if_neg (by norm_num), if_pos (by decide)]

/-! ## Claim about the help flag (C6) -/

/-- Claim C6 (code bug): the option loop compares against the short form
`-h` only, so an argument list carrying `--help` prints nothing and the
program proceeds to the conversion pipeline with the default
configuration, while `-h` prints the usage text and exits (with status 0,
the success status, via a bare `sys.exit()`). -/
theorem c6_long_help_ignored :
    (parseArgs "/home/u" fsDefaultsOk ["--help"]).printed = [] ∧
    (parseArgs "/home/u" fsDefaultsOk ["--help"]).result
      = Except.ok (initialConfig "/home/u") ∧
    (parseArgs "/home/u" fsDefaultsOk ["-h"]).printed = [HELP_MESSAGE] ∧
    (parseArgs "/home/u" fsDefaultsOk ["-h"]).result = Except.error 0 :=
  ⟨rfl, rfl, rfl, rfl⟩

/-! ## Claims about validation failures and the output fallback (C4, C8) -/

/-- Claim C4 is refuted at a concrete invocation: with no arguments and a
file system on which the default input file does not exist, input-path
validation fails and the process terminates — but through a bare `exit()`,
i.e. with exit status 0, not a non-zero status. -/
theorem c4_counterexample :
    (parseArgs "/home/u" fsEmpty []).logs = [⟨Severity.codeBreaker, invalidInputMsg⟩] ∧
    (parseArgs "/home/u" fsEmpty []).result = Except.error 0 ∧
    ¬ (∀ code, (parseArgs "/home/u" fsEmpty []).result = Except.error code → code ≠ 0) :=
  ⟨rfl, rfl, fun h => h 0 rfl rfl⟩

/-- Claim C4 amended: every invocation on which argument parsing fails
(`GetoptError`) or input-path validation fails (missing path, directory,
or wrong extension) terminates the process — with exit status 0, because
the script exits through bare `exit()` calls. -/
theorem c4_exit_zero (home : String) (fs : FS) (argv : List String)
    (h : getoptModel argv = none ∨
      ∃ opts rest st, getoptModel argv = some (opts, rest) ∧
        processOpts opts (initialConfig home) = some st ∧
        (fs.pathExists st.inputFilePath = false ∨ fs.isDir st.inputFilePath = true ∨
          strEndsWith st.inputFilePath inputFileExtension = false)) :
    (parseArgs home fs argv).result = Except.error 0 := by
  rcases h with h | ⟨opts, rest, st, hg, hp, hv⟩
  · simp [parseArgs, h]
  · have hcond : (!fs.pathExists st.inputFilePath || fs.isDir st.inputFilePath
        || !strEndsWith st.inputFilePath inputFileExtension) = true := by
      rcases hv with h1 | h1 | h1 <;> simp [h1]
    simp [parseArgs, hg, hp, hcond]

/-- Witness for the amended C4: the unknown flag `-z` makes `getopt` fail,
and the process exits with status 0. -/
theorem c4_exit_zero_witness :
    getoptModel ["-z"] = none ∧
    (parseArgs "/home/u" fsEmpty ["-z"]).result = Except.error 0 :=
  ⟨rfl, c4_exit_zero "/home/u" fsEmpty ["-z"] (Or.inl rfl)⟩

/-- Claim C8 is refuted at a concrete invocation: with no arguments and an
empty file system, the directory component of the configured output path
does not exist — yet the program terminates at the input-path check (no
warning is logged and no fallback happens), contradicting `does not
terminate`. -/
theorem c8_counterexample :
    fsEmpty.pathExists (dirname (outputDefaultPath "/home/u")) = false ∧
    (parseArgs "/home/u" fsEmpty []).result = Except.error 0 ∧
    (parseArgs "/home/u" fsEmpty []).logs = [⟨Severity.codeBreaker, invalidInputMsg⟩] :=
  ⟨rfl, rfl, rfl⟩

/-- Claim C8 amended: when option parsing succeeds without the help flag
and the input path validates, an output path whose directory component
does not exist (or which is itself a directory) makes `parseArgs` log a
warning, replace the output path with the platform default, and return
normally (no termination). -/
theorem c8_output_fallback (home : String) (fs : FS) (argv : List String)
    (opts : List (String × String)) (rest : List String) (st : RunConfig)
    (hg : getoptModel argv = some (opts, rest))
    (hp : processOpts opts (initialConfig home) = some st)
    (hex : fs.pathExists st.inputFilePath = true)
    (hdir : fs.isDir st.inputFilePath = false)
    (hext : strEndsWith st.inputFilePath inputFileExtension = true)
    (hout : fs.pathExists (dirname st.outputFilePath) = false ∨
      fs.isDir st.outputFilePath = true) :
    parseArgs home fs argv =
      { logs := [⟨Severity.warning, invalidOutputMsg⟩], printed := [],
        result := Except.ok { st with outputFilePath := outputDefaultPath home } } := by
  have hcond1 : (!fs.pathExists st.inputFilePath || fs.isDir st.inputFilePath
      || !strEndsWith st.inputFilePath inputFileExtension) = false := by
    simp [hex, hdir, hext]
  have hcond2 : (!fs.pathExists (dirname st.outputFilePath)
      || fs.isDir st.outputFilePath) = true := by
    rcases hout with h1 | h1 <;> simp [h1]
  simp [parseArgs, hg, hp, hcond1, hcond2]

/-- Witness for the amended C8: `-o /nope/out.tsv` with an existing default
input file and no `/nope` directory falls back to the default output path
with a warning, and parsing returns normally. -/
theorem c8_output_fallback_witness :
    parseArgs "/home/u" fsDefaultsOk ["-o", "/nope/out.tsv"] =
      { logs := [⟨Severity.warning, invalidOutputMsg⟩], printed := [],
        result := Except.ok
          { initialConfig "/home/u" with outputFilePath := outputDefaultPath "/home/u" } } :=
  c8_output_fallback "/home/u" fsDefaultsOk ["-o", "/nope/out.tsv"]
    [("-o", "/nope/out.tsv")] []
    { initialConfig "/home/u" with outputFilePath := "/nope/out.tsv" }
    rfl rfl rfl rfl rfl (Or.inl rfl)

/-! ## Claim about preserving or deleting the input file (C9) -/

/-- Claim C9 is refuted at a concrete run: with the output path equal to
the input path (reachable via `-i f.xls -o f.xls`) and the preserve flag
set, the run succeeds and the input file still exists at exit, but its
content has been overwritten by the serialized output — it is not
unchanged. -/
theorem c9_counterexample :
    cfgSamePath.preserveOldFiles = true ∧
    fmSame "/d/f.xls" = some "raw-xls-bytes" ∧
    (mainRun cfgSamePath readExcelEmpty fmSame).map (fun r => r.2 "/d/f.xls")
      = some (some "Site\tItemNumber\tQuantityOnHand\r\n") ∧
    some "Site\tItemNumber\tQuantityOnHand\r\n" ≠ some "raw-xls-bytes" := by
  refine ⟨rfl, rfl, rfl, by decide⟩

/-- Claim C9 amended: provided the output path differs from the input
path, a successful run with the preserve flag leaves the input file in
place unchanged and performs no deletion at all; a successful run without
the preserve flag ends with the input file deleted, the deletion occurring
strictly after the output write in the event order. -/
theorem c9_preserve_frame (cfg : RunConfig) (readExcel : String → List Row)
    (fs : FileMap) (c : String) (evs : List FileEvent) (fm2 : FileMap)
    (hneq : cfg.outputFilePath ≠ cfg.inputFilePath)
    (hc : fs cfg.inputFilePath = some c)
    (hrun : mainRun cfg readExcel fs = some (evs, fm2)) :
    (cfg.preserveOldFiles = true →
      fm2 cfg.inputFilePath = some c ∧ ∀ p, FileEvent.removeF p ∉ evs) ∧
    (cfg.preserveOldFiles = false →
      fm2 cfg.inputFilePath = none ∧
      evs = [FileEvent.readF cfg.inputFilePath,
        FileEvent.writeF cfg.outputFilePath
          (String.mk (serialize (delimiterChar cfg.delimiter) (cleanTable (readExcel c)))),
        FileEvent.removeF cfg.inputFilePath]) := by
  have hne2 : cfg.inputFilePath ≠ cfg.outputFilePath := fun h => hneq h.symm
  cases hpres : cfg.preserveOldFiles with
  | true =>
    simp only [mainRun, hc, hpres, if_pos, List.append_nil] at hrun
    obtain ⟨hevs, hfm⟩ := Prod.mk.injEq .. ▸ Option.some.injEq .. ▸ hrun
    refine ⟨fun _ => ⟨?_, ?_⟩, fun h => Bool.noConfusion h⟩
    · rw [← hfm]
      simp [applyEvent, hne2, hc]
    · intro p
      rw [← hevs]
      simp
  | false =>
    simp only [mainRun, hc, hpres, if_neg, Bool.false_eq_true, not_false_iff] at hrun
    obtain ⟨hevs, hfm⟩ := Prod.mk.injEq .. ▸ Option.some.injEq .. ▸ hrun
    refine ⟨fun h => Bool.noConfusion h, fun _ => ⟨?_, ?_⟩⟩
    · rw [← hfm]
      simp [applyEvent]
    · rw [← hevs]
      simp

/-- Witness for the amended C9: a run on distinct paths without the
preserve flag ends with the input file deleted and the events in the order
read, write output, remove input. -/
theorem c9_preserve_frame_witness :
    (List.foldl applyEvent fmDistinct
        [FileEvent.readF "/d/in.xls",
         FileEvent.writeF "/d/out.tsv" "Site\tItemNumber\tQuantityOnHand\r\n",
         FileEvent.removeF "/d/in.xls"]) "/d/in.xls" = none ∧
      [FileEvent.readF "/d/in.xls",
       FileEvent.writeF "/d/out.tsv" "Site\tItemNumber\tQuantityOnHand\r\n",
       FileEvent.removeF "/d/in.xls"]
        = [FileEvent.readF cfgDistinct.inputFilePath,
           FileEvent.writeF cfgDistinct.outputFilePath
             (String.mk (serialize (delimiterChar cfgDistinct.delimiter)
               (cleanTable (readExcelEmpty "raw-xls-bytes")))),
           FileEvent.removeF cfgDistinct.inputFilePath] :=
  (c9_preserve_frame cfgDistinct readExcelEmpty fmDistinct "raw-xls-bytes"
    [FileEvent.readF "/d/in.xls",
     FileEvent.writeF "/d/out.tsv" "Site\tItemNumber\tQuantityOnHand\r\n",
     FileEvent.removeF "/d/in.xls"]
    (List.foldl applyEvent fmDistinct
      [FileEvent.readF "/d/in.xls",
       FileEvent.writeF "/d/out.tsv" "Site\tItemNumber\tQuantityOnHand\r\n",
       FileEvent.removeF "/d/in.xls"])
    (by decide) rfl rfl).2 rfl

/-! ## Claim about the serialized output format (C2) -/

/-- Claim C2: for any allow-list separator, the serialized output consists
of exactly a header line carrying the three column names in fixed order,
followed by one line per record in source order restricted to the three
columns `Site`, `ItemNumber`, `QuantityOnHand`, each field escaped with
the backslash escape character and joined by the separator, and every line
terminated by CRLF. -/
theorem c2_output_format (sep : Char) (hsep : sep ∈ sepChars) (t : List CleanRow) :
    serialize sep t =
      "Site".toList ++ [sep] ++ "ItemNumber".toList ++ [sep] ++ "QuantityOnHand".toList
        ++ CRLF
        ++ (t.map (fun r =>
            escapeField sep r.site.toList ++ [sep] ++ escapeField sep r.item.toList
              ++ [sep] ++ escapeField sep (Int.repr r.qty).toList ++ CRLF)).flatten := by
  have h5 : sep = ',' ∨ sep = '\t' ∨ sep = ':' ∨ sep = '|' ∨ sep = ' ' := by
    simpa [sepChars] using hsep
  rcases h5 with rfl | rfl | rfl | rfl | rfl <;> rfl

/-- Witness for C2 at the default tab separator and a one-row table. -/
theorem c2_output_format_witness :
    ('\t' ∈ sepChars) ∧
      serialize '\t' [rowPlain] = "Site\tItemNumber\tQuantityOnHand\r\nA\t100\t5\r\n".toList :=
  ⟨by decide, (c2_output_format '\t' (by decide) [rowPlain]).trans (by decide)⟩

/-! ## Claim about the round-trip (C7) -/

/-- Claim C7 is refuted at a concrete table: when a `Site` value contains
the delimiter (here a tab), the writer escapes it with a backslash, and
loading the file back with the same delimiter splits the field apart —
the parsed rows are not the three-column projection of the cleaned table. -/
theorem c7_counterexample :
    parseDelimited '\t' (serialize '\t' [rowWithTab])
      ≠ ["Site".toList, "ItemNumber".toList, "QuantityOnHand".toList]
          :: [rowWithTab].map (fun r =>
              [r.site.toList, r.item.toList, (Int.repr r.qty).toList]) := by
  decide

/-- Claim C7 amended: provided no `Site` or `ItemNumber` value contains
the delimiter, the backslash escape character, or a CR/LF character,
loading the produced output with the same allow-list delimiter yields
exactly the header row followed by the three-column projection of the
cleaned table, with identical rows in identical order. -/
theorem c7_roundtrip (sep : Char) (hsep : sep ∈ sepChars) (t : List CleanRow)
    (hclean : ∀ r ∈ t, plainField sep r.site.toList = true ∧
      plainField sep r.item.toList = true) :
    parseDelimited sep (serialize sep t)
      = ["Site".toList, "ItemNumber".toList, "QuantityOnHand".toList]
          :: t.map (fun r => [r.site.toList, r.item.toList, (Int.repr r.qty).toList]) := by
  have h5 : sep = ',' ∨ sep = '\t' ∨ sep = ':' ∨ sep = '|' ∨ sep = ' ' := by
    simpa [sepChars] using hsep
  rcases h5 with rfl | rfl | rfl | rfl | rfl <;>
    exact roundtrip_aux _ (by decide) (by decide) (by decide) (by decide)
      (by decide) (by decide) (by decide) t hclean

/-- Witness for the amended C7 at the default tab separator and a one-row
table with plain fields. -/
theorem c7_roundtrip_witness :
    ('\t' ∈ sepChars) ∧
      parseDelimited '\t' (serialize '\t' [rowPlain])
        = [["Site".toList, "ItemNumber".toList, "QuantityOnHand".toList],
           ["A".toList, "100".toList, "5".toList]] :=
  ⟨by decide, (c7_roundtrip '\t' (by decide) [rowPlain] (by decide)).trans (by decide)⟩
